import Mathlib

/-!
# Verification of the analytics-assistant scripts

Shallow embedding of the pure transformation logic of
`src/extract_ddl.py` (schema DDL extraction) and
`src/train_from_files.py` (training-file loader) together with proofs
of the specified properties.

Python strings are embedded as Lean `String`; the handful of Python
string primitives used by the scripts (`str.strip`, `str.startswith`,
slicing, `str.split('\n')`, `str.upper`) are given explicit executable
definitions over the character list so that every claim can be
evaluated on concrete inputs.
-/

namespace AnalyticsAssistant

/-! ## Python string primitives -/

/-- The whitespace characters removed by Python's `str.strip()`. -/
def pyWS (c : Char) : Bool :=
  c = ' ' || c = '\t' || c = '\n' || c = '\r' || c = '\x0b' || c = '\x0c'

/-- Remove leading and trailing whitespace from a character list. -/
def stripChars (l : List Char) : List Char :=
  ((l.dropWhile pyWS).reverse.dropWhile pyWS).reverse

/-- Embedding of Python `s.strip()`. -/
def pyStrip (s : String) : String :=
  String.mk (stripChars s.data)

/-- Embedding of Python `s.startswith(pre)`. -/
def pyStartsWith (s pre : String) : Bool :=
  pre.data.isPrefixOf s.data

/-- Embedding of Python `s[n:]` (drop the first `n` characters). -/
def pyDrop (s : String) (n : Nat) : String :=
  String.mk (s.data.drop n)

/-- Helper for `pySplitLines`: accumulates the current line (reversed). -/
def splitLinesAux : List Char → List Char → List String
  | cur, [] => [String.mk cur.reverse]
  | cur, c :: rest =>
    if c = '\n' then String.mk cur.reverse :: splitLinesAux [] rest
    else splitLinesAux (c :: cur) rest

/-- Embedding of Python `content.split('\n')`. -/
def pySplitLines (s : String) : List String :=
  splitLinesAux [] s.data

/-- Embedding of Python `s.upper()` (ASCII case mapping). -/
def pyUpper (s : String) : String :=
  String.mk (s.data.map Char.toUpper)

/-! ## `train_from_files.py`: `parse_example_file` (lines 126-155)

The Python loop carries two mutable slots, `current_question` and
`current_sql`, both initially `None`.  A `Q:` line overwrites the
question slot; an `SQL:` line sets the sql slot and, when both slots
are truthy (non-`None` and non-empty), commits the pair and clears
both slots.  Python truthiness of an optional string: `None` and `""`
are falsy. -/

/-- Python truthiness of an `Optional[str]`. -/
def strTruthy : Option String → Bool
  | none => false
  | some s => s ≠ ""

/-- Parser state: (`current_question`, `current_sql`). -/
abbrev ParseState := Option String × Option String

/-- One iteration of the `for line in lines` loop of
`parse_example_file`: returns the new state and the pairs appended to
`examples` during this iteration. -/
def stepLine (st : ParseState) (line : String) : ParseState × List (String × String) :=
  let l := pyStrip line
  if pyStartsWith l "Q:" then
    ((some (pyStrip (pyDrop l 2)), st.2), [])
  else if pyStartsWith l "SQL:" then
    let s := pyStrip (pyDrop l 4)
    if strTruthy st.1 && strTruthy (some s) then
      ((none, none), [(st.1.getD "", s)])
    else
      ((st.1, some s), [])
  else
    (st, [])

/-- Run the parsing loop over a list of lines from a given state,
returning the final state and all committed pairs in order. -/
def runLines (st : ParseState) : List String → ParseState × List (String × String)
  | [] => (st, [])
  | l :: ls =>
    ((runLines (stepLine st l).1 ls).1,
      (stepLine st l).2 ++ (runLines (stepLine st l).1 ls).2)

/-- The pairs parsed from an already-split list of lines. -/
def parseLines (ls : List String) : List (String × String) :=
  (runLines (none, none) ls).2

/-- Embedding of `parse_example_file` (`train_from_files.py:126-155`):
the list of (question, sql) pairs parsed from the file content. -/
def parse_example_file (content : String) : List (String × String) :=
  parseLines (pySplitLines content)

/-! ## `extract_ddl.py`: `extract_table_ddl` (lines 62-137)

One row of the column-metadata query (`INFORMATION_SCHEMA.TABLES`
joined with `INFORMATION_SCHEMA.COLUMNS`, ordered by schema, table,
ordinal position).  Nullable database values are embedded as `Option`;
Python truthiness of an optional integer (`None` and `0` falsy) and of
an optional string (`None` and `""` falsy) is made explicit. -/

structure ColRow where
  schema : String
  tableName : String
  colName : String
  dataType : String
  charLen : Option Int
  numPrec : Option Int
  numScale : Option Int
  nullable : String
  colDefault : Option String
  pos : Nat
deriving DecidableEq, Repr

/-- Python truthiness of an `Optional[int]`. -/
def intTruthy : Option Int → Bool
  | none => false
  | some n => n ≠ 0

/-- The character types that receive a length suffix
(`extract_ddl.py:102`). -/
def charTypeNames : List String := ["VARCHAR", "NVARCHAR", "CHAR", "NCHAR"]

/-- The exact-numeric types that receive a precision/scale suffix
(`extract_ddl.py:107`). -/
def numTypeNames : List String := ["DECIMAL", "NUMERIC"]

/-- The length / precision suffix appended to a column definition
(`extract_ddl.py:101-111`): character types with a truthy
`CHARACTER_MAXIMUM_LENGTH` get `(MAX)` for the sentinel `-1` and
`(<len>)` otherwise; exact-numeric types with a truthy
`NUMERIC_PRECISION` get `(<prec>,<scale>)` when the scale is truthy
and `(<prec>)` otherwise; all other columns get no suffix. -/
def typeSuffix (r : ColRow) : String :=
  if charTypeNames.contains (pyUpper r.dataType) && intTruthy r.charLen then
    match r.charLen with
    | some n => if n = -1 then "(MAX)" else s!"({n})"
    | none => ""
  else if numTypeNames.contains (pyUpper r.dataType) && intTruthy r.numPrec then
    match r.numPrec with
    | some p =>
      if intTruthy r.numScale then
        match r.numScale with
        | some sc => s!"({p},{sc})"
        | none => s!"({p})"
      else s!"({p})"
    | none => ""
  else ""

/-- The ` NOT NULL` marker (`extract_ddl.py:114-115`). -/
def nullSuffix (r : ColRow) : String :=
  if r.nullable = "NO" then " NOT NULL" else ""

/-- The ` DEFAULT <expr>` marker (`extract_ddl.py:118-119`); Python
truthiness drops both `None` and the empty string. -/
def defaultSuffix (r : ColRow) : String :=
  if strTruthy r.colDefault then " DEFAULT " ++ r.colDefault.getD "" else ""

/-- The full rendered column definition `col_def`
(`extract_ddl.py:99-119`). -/
def colDef (r : ColRow) : String :=
  let cn := r.colName
  let dt := pyUpper r.dataType
  s!"    {cn} {dt}" ++ typeSuffix r ++ nullSuffix r ++ defaultSuffix r

/-- The dictionary key `full_table_name = f"{schema}.{table_name}"`
(`extract_ddl.py:94`). -/
def fullName (r : ColRow) : String :=
  r.schema ++ "." ++ r.tableName

/-- Dictionary update for one row, keeping the full row: if the key is
already present, append the row to its group (dict insertion order is
preserved, so the entry keeps its position); otherwise append a new
entry at the end.  This mirrors `tables[full_table_name].append(...)`
/ `tables[full_table_name] = []` at `extract_ddl.py:95-96,121`. -/
def insertRow (acc : List (String × List ColRow)) (k : String) (r : ColRow) :
    List (String × List ColRow) :=
  match acc with
  | [] => [(k, [r])]
  | (k', g) :: rest =>
    if k' = k then (k', g ++ [r]) :: rest else (k', g) :: insertRow rest k r

/-- The `for row in results` loop of `extract_table_ddl`
(`extract_ddl.py:91-121`), keeping whole rows as group members. -/
def groupsAux (acc : List (String × List ColRow)) : List ColRow → List (String × List ColRow)
  | [] => acc
  | r :: rs => groupsAux (insertRow acc (fullName r) r) rs

/-- The grouping of the metadata rows into the `tables` dictionary,
with whole rows as values. -/
def groupsOf (rows : List ColRow) : List (String × List ColRow) :=
  groupsAux [] rows

/-- Dictionary update as performed by the source, storing the rendered
`col_def` string rather than the row. -/
def insertDef (acc : List (String × List String)) (k : String) (d : String) :
    List (String × List String) :=
  match acc with
  | [] => [(k, [d])]
  | (k', g) :: rest =>
    if k' = k then (k', g ++ [d]) :: rest else (k', g) :: insertDef rest k d

/-- The `tables` dictionary built by `extract_table_ddl`
(`extract_ddl.py:90-121`): keys in first-occurrence order, values the
rendered column definitions in row order. -/
def tablesAux (acc : List (String × List String)) : List ColRow → List (String × List String)
  | [] => acc
  | r :: rs => tablesAux (insertDef acc (fullName r) (colDef r)) rs

/-- The finished `tables` dictionary of `extract_table_ddl`. -/
def tables_of (rows : List ColRow) : List (String × List String) :=
  tablesAux [] rows

/-- One `CREATE TABLE` block (`extract_ddl.py:126-129`). -/
def renderBlock (p : String × List String) : String :=
  "CREATE TABLE " ++ p.1 ++ " (\n" ++ String.intercalate ",\n" p.2 ++ "\n);\n\n"

/-- The content of `01_tables.sql` produced by `extract_table_ddl`
(`extract_ddl.py:124-134`). -/
def extract_table_ddl (rows : List ColRow) : String :=
  "-- Table Definitions\n-- Generated automatically from database schema\n\n" ++
    String.join ((tables_of rows).map renderBlock)

/-! ## `extract_ddl.py`: the remaining extraction steps (lines 139-326)

Each step receives pre-aggregated rows from the database and renders
one statement per row in the returned row order. -/

structure PKRow where
  schema : String
  tableName : String
  constraintName : String
  columns : String
deriving DecidableEq, Repr

/-- The content of `02_primary_keys.sql` (`extract_ddl.py:162-172`). -/
def extract_primary_keys (rows : List PKRow) : String :=
  "-- Primary Key Constraints\n-- Generated automatically from database schema\n\n" ++
    String.join (rows.map fun r =>
      let sch := r.schema
      let tbl := r.tableName
      let cn := r.constraintName
      let cols := r.columns
      s!"ALTER TABLE {sch}.{tbl}\nADD CONSTRAINT {cn} PRIMARY KEY ({cols});\n\n")

structure FKRow where
  constraintName : String
  parentTable : String
  parentSchema : String
  parentColumn : String
  refTable : String
  refSchema : String
  refColumn : String
deriving DecidableEq, Repr

/-- The content of `03_foreign_keys.sql` (`extract_ddl.py:204-215`). -/
def extract_foreign_keys (rows : List FKRow) : String :=
  "-- Foreign Key Constraints\n-- Generated automatically from database schema\n\n" ++
    String.join (rows.map fun r =>
      let ps := r.parentSchema
      let pt := r.parentTable
      let cn := r.constraintName
      let pc := r.parentColumn
      let rs := r.refSchema
      let rt := r.refTable
      let rc := r.refColumn
      s!"ALTER TABLE {ps}.{pt}\nADD CONSTRAINT {cn} FOREIGN KEY ({pc})\nREFERENCES {rs}.{rt}({rc});\n\n")

structure ViewRow where
  schema : String
  viewName : String
  definition : String
deriving DecidableEq, Repr

/-- The content of `04_views.sql` (`extract_ddl.py:236-246`). -/
def extract_views (rows : List ViewRow) : String :=
  "-- View Definitions\n-- Generated automatically from database schema\n\n" ++
    String.join (rows.map fun r =>
      let sch := r.schema
      let vn := r.viewName
      let d := r.definition
      s!"CREATE VIEW {sch}.{vn} AS\n{d};\n\n")

structure IdxRow where
  schema : String
  tableName : String
  indexName : String
  indexType : String
  isUnique : Bool
  columns : String
deriving DecidableEq, Repr

/-- The content of `05_indexes.sql` (`extract_ddl.py:278-290`). -/
def extract_indexes (rows : List IdxRow) : String :=
  "-- Index Definitions\n-- Generated automatically from database schema\n\n" ++
    String.join (rows.map fun r =>
      let uq := if r.isUnique then "UNIQUE " else ""
      let ixn := r.indexName
      let sch := r.schema
      let tbl := r.tableName
      let cols := r.columns
      s!"CREATE {uq}INDEX {ixn}\nON {sch}.{tbl} ({cols});\n\n")

structure SPRow where
  schema : String
  spName : String
  definition : String
deriving DecidableEq, Repr

/-- The content of `06_stored_procedures.sql` (`extract_ddl.py:313-323`). -/
def extract_stored_procedures (rows : List SPRow) : String :=
  "-- Stored Procedure Definitions\n-- Generated automatically from database schema\n\n" ++
    String.join (rows.map fun r =>
      let sch := r.schema
      let sp := r.spName
      let d := r.definition
      s!"-- {sch}.{sp}\n{d};\n\n")

/-! ## `extract_ddl.py`: `create_summary_file` and `run_extraction`
(lines 328-405) -/

/-- The per-step counts collected by `run_extraction`
(`extract_ddl.py:372-381`); `counts.get(key, 0)` always finds the key
in the success path. -/
structure Counts where
  tables : Nat
  primaryKeys : Nat
  foreignKeys : Nat
  views : Nat
  indexes : Nat
  storedProcedures : Nat
deriving DecidableEq, Repr

/-- Environment inputs of `create_summary_file`: configured database
and host names, and the stripped outputs of `os.popen('date /t')` and
`os.popen('time /t')` captured at run time (`extract_ddl.py:331-333`). -/
structure SummaryEnv where
  database : String
  host : String
  dateOut : String
  timeOut : String
deriving DecidableEq, Repr

/-- The content of `00_schema_summary.sql` written by
`create_summary_file` (`extract_ddl.py:330-356`).  Note that the
third comment line embeds the date/time command output captured at
extraction time. -/
def create_summary_file (env : SummaryEnv) (c : Counts) : String :=
  let db := env.database
  let hs := env.host
  let dt := env.dateOut
  let tm := env.timeOut
  let t := c.tables
  let pk := c.primaryKeys
  let fk := c.foreignKeys
  let vw := c.views
  let ix := c.indexes
  let sp := c.storedProcedures
  s!"-- Database Schema Summary\n-- Database: {db}\n-- Server: {hs}\n-- Extracted on: {dt} {tm}\n\n/*\nSchema Summary:\n- Tables: {t}\n- Primary Keys: {pk}\n- Foreign Keys: {fk}\n- Views: {vw}\n- Indexes: {ix}\n- Stored Procedures: {sp}\n\nFiles Generated:\n1. 01_tables.sql - Table definitions with columns and data types\n2. 02_primary_keys.sql - Primary key constraints\n3. 03_foreign_keys.sql - Foreign key relationships\n4. 04_views.sql - View definitions\n5. 05_indexes.sql - Index definitions\n6. 06_stored_procedures.sql - Stored procedure definitions\n\nUsage for Vanna AI Training:\nAll these files will be automatically processed when you run:\npython train_from_files.py\n*/\n"

/-- The result sets of the six catalog queries for one run: the schema
metadata visible to the Extractor. -/
structure DbData where
  tableRows : List ColRow
  pkRows : List PKRow
  fkRows : List FKRow
  viewRows : List ViewRow
  idxRows : List IdxRow
  spRows : List SPRow
deriving DecidableEq, Repr

/-- The contents of the seven files written by one successful run. -/
structure RunOutputs where
  f00 : String
  f01 : String
  f02 : String
  f03 : String
  f04 : String
  f05 : String
  f06 : String
deriving DecidableEq, Repr

/-- The counts returned by the six extraction steps
(`extract_ddl.py:136-137,174-175,217-218,248-249,292-293,325-326`):
the number of `tables` dictionary entries for tables, and the number
of result rows for every other step. -/
def countsOf (db : DbData) : Counts where
  tables := (tables_of db.tableRows).length
  primaryKeys := db.pkRows.length
  foreignKeys := db.fkRows.length
  views := db.viewRows.length
  indexes := db.idxRows.length
  storedProcedures := db.spRows.length

/-- The seven file contents produced by a fully successful
`run_extraction` (`extract_ddl.py:364-405`) as a function of the
schema metadata and the run environment. -/
def run_extraction_files (env : SummaryEnv) (db : DbData) : RunOutputs where
  f00 := create_summary_file env (countsOf db)
  f01 := extract_table_ddl db.tableRows
  f02 := extract_primary_keys db.pkRows
  f03 := extract_foreign_keys db.fkRows
  f04 := extract_views db.viewRows
  f05 := extract_indexes db.idxRows
  f06 := extract_stored_procedures db.spRows

/-! ## `extract_ddl.py`: control flow of `run_extraction` (C8)

`run_extraction` returns early when `connect_to_database` fails
(`extract_ddl.py:369-370`); otherwise it runs the seven steps inside a
`try` whose first raising step aborts the remaining steps, with the
`finally` block closing the connection in every case
(`extract_ddl.py:374-405`).  Each step writes its file only when it
completes; a raising step writes nothing (the write is the last action
of each step, after the query).  The observable events of a run: -/

inductive ExtractEvent where
  | connected
  | connectFailed
  | fileWrite (name : String)
  | connClosed
deriving DecidableEq, Repr

/-- Whether each potentially raising action of the run completes
without a database error. -/
structure StepOutcomes where
  connectOk : Bool
  tablesOk : Bool
  pkOk : Bool
  fkOk : Bool
  viewsOk : Bool
  idxOk : Bool
  spOk : Bool
  summaryOk : Bool
deriving DecidableEq, Repr

/-- Run the extraction steps in order: each completing step writes its
file; the first raising step ends the sequence (the exception
propagates to the `except` handler). -/
def stepsRun : List (Bool × String) → List ExtractEvent
  | [] => []
  | (ok, name) :: rest =>
    if ok then ExtractEvent.fileWrite name :: stepsRun rest else []

/-- The fixed (step, file) order of `run_extraction`
(`extract_ddl.py:376-384`). -/
def stepList (o : StepOutcomes) : List (Bool × String) :=
  [(o.tablesOk, "01_tables.sql"), (o.pkOk, "02_primary_keys.sql"),
   (o.fkOk, "03_foreign_keys.sql"), (o.viewsOk, "04_views.sql"),
   (o.idxOk, "05_indexes.sql"), (o.spOk, "06_stored_procedures.sql"),
   (o.summaryOk, "00_schema_summary.sql")]

/-- The event trace of `run_extraction` (`extract_ddl.py:364-405`):
a failed connection returns before the `try` block (no file, no
close); otherwise the steps run until the first error and the
`finally` block closes the connection exactly once. -/
def run_extraction_trace (o : StepOutcomes) : List ExtractEvent :=
  if o.connectOk then
    ExtractEvent.connected :: (stepsRun (stepList o) ++ [ExtractEvent.connClosed])
  else
    [ExtractEvent.connectFailed]

/-! ## `train_from_files.py`: training-call success decision
(lines 70-124 and 157-185)

The decision made by `train_documentation`, `train_ddl` and the
per-example branch of `train_examples` on one HTTP response: success
iff the status code is 200 and the parsed JSON body's `status` field
equals `"success"`. -/

/-- One HTTP response as observed by the trainer: the status code and
the value of the `status` field of the parsed JSON body (`none` when
the field is absent or not the string compared against). -/
structure TrainResponse where
  statusCode : Nat
  jsonStatus : Option String
deriving DecidableEq, Repr

/-- The success decision of `train_documentation`
(`train_from_files.py:83-93`), identical in `train_ddl`
(`111-121`) and per example in `train_examples` (`173-181`). -/
def trainCallSuccess (resp : TrainResponse) : Bool :=
  if resp.statusCode = 200 then
    if resp.jsonStatus = some "success" then true else false
  else false

/-- The per-example outcome inside `train_examples`: a raised request
exception (`none`) is caught and counts as failure
(`train_from_files.py:182-183`). -/
def exampleOutcome : Option TrainResponse → Bool
  | none => false
  | some r => trainCallSuccess r

/-- The `success_count` accumulated by `train_examples`
(`train_from_files.py:160-177`): one POST per parsed pair, in order;
`respond i` is the response to the POST for pair `i` (`none` for a
raised exception). -/
def train_examples_count (content : String) (respond : Nat → Option TrainResponse) : Nat :=
  (List.range (parse_example_file content).length).countP
    fun i => exampleOutcome (respond i)

/-- The overall result of `train_examples`
(`train_from_files.py:185`): `success_count > 0`. -/
def train_examples (content : String) (respond : Nat → Option TrainResponse) : Bool :=
  decide (0 < train_examples_count content respond)

/-! ## Ordering of the column-metadata result set

The column query orders its rows by `TABLE_SCHEMA, TABLE_NAME,
ORDINAL_POSITION` (`extract_ddl.py:84`).  SQL string ordering is
embedded as the usual lexicographic order on the character lists. -/

/-- Lexicographic strict order on character lists. -/
def charListLt : List Char → List Char → Bool
  | [], [] => false
  | [], _ :: _ => true
  | _ :: _, [] => false
  | a :: as, b :: bs => a < b || (a = b && charListLt as bs)

/-- Lexicographic strict order on strings. -/
def strLtb (a b : String) : Bool :=
  charListLt a.data b.data

/-- The order `ORDER BY TABLE_SCHEMA, TABLE_NAME, ORDINAL_POSITION` on
two metadata rows. -/
def rowLE (a b : ColRow) : Prop :=
  strLtb a.schema b.schema = true ∨
    (a.schema = b.schema ∧ (strLtb a.tableName b.tableName = true ∨
      (a.tableName = b.tableName ∧ a.pos ≤ b.pos)))

instance : DecidableRel rowLE := fun a b => by
  unfold rowLE; infer_instance

/-- A well-formed result set: rows arrive sorted by schema, table,
ordinal position. -/
def sortedRows (rows : List ColRow) : Prop :=
  rows.Pairwise rowLE

instance (rows : List ColRow) : Decidable (sortedRows rows) := by
  unfold sortedRows; infer_instance

/-- No schema name contains a dot, so the dictionary key
`f"{schema}.{table_name}"` determines the (schema, table) pair. -/
def dotFreeSchemas (rows : List ColRow) : Prop :=
  ∀ r ∈ rows, ('.' : Char) ∉ r.schema.data

instance (rows : List ColRow) : Decidable (dotFreeSchemas rows) := by
  unfold dotFreeSchemas; infer_instance

/-- Dictionary lookup in the grouped representation: the group stored
under key `k`, or `[]` when the key is absent. -/
def findGrp (l : List (String × List ColRow)) (k : String) : List ColRow :=
  match l with
  | [] => []
  | (k', g) :: rest => if k' = k then g else findGrp rest k

/-- The value part of the `tables` dictionary entry for a group of
rows: the rendered column definitions. -/
def defsOfGroup (p : String × List ColRow) : String × List String :=
  (p.1, p.2.map colDef)

/-- Concrete rows used in counterexamples: a schema name containing a
dot collides with a different (schema, table) pair under the
`f"{schema}.{table_name}"` dictionary key. -/
def cexRowA : ColRow :=
  ⟨"a", "b.c", "x", "int", none, none, none, "YES", none, 1⟩

/-- Second counterexample row, a distinct (schema, table) pair with
the same dictionary key `"a.b.c"` as `cexRowA`. -/
def cexRowB : ColRow :=
  ⟨"a.b", "c", "y", "int", none, none, none, "YES", none, 1⟩

/-- The block structure produced by `extract_table_ddl`: the `tables`
dictionary (one `CREATE TABLE` block per entry) has pairwise distinct
keys, every row contributes to the entry keyed by its table, rows
share an entry exactly when they share schema and table name, the
rows of each entry appear in ordinal-position order, and each entry's
rendered columns are exactly its rows' column definitions in order. -/
def TableBlockStructure (rows : List ColRow) : Prop :=
  ((tables_of rows).map Prod.fst).Nodup ∧
  (∀ r ∈ rows, fullName r ∈ (tables_of rows).map Prod.fst) ∧
  (∀ k g, (k, g) ∈ groupsOf rows → ∀ r ∈ g, r ∈ rows ∧ fullName r = k) ∧
  (∀ r ∈ rows, ∀ r' ∈ rows, (fullName r = fullName r' ↔
      r.schema = r'.schema ∧ r.tableName = r'.tableName)) ∧
  (∀ k g, (k, g) ∈ groupsOf rows → g.Pairwise (fun a b => a.pos ≤ b.pos)) ∧
  tables_of rows = (groupsOf rows).map defsOfGroup

/-- Concrete well-formed metadata rows used in witnesses. -/
def witnessRows : List ColRow :=
  [⟨"dbo", "orders", "id", "int", none, none, none, "NO", none, 1⟩,
   ⟨"dbo", "orders", "name", "varchar", some 50, none, none, "YES", none, 2⟩,
   ⟨"dbo", "users", "id", "int", none, none, none, "NO", none, 1⟩]

/-- Two-run determinism statement: with equal schema metadata the six
DDL files coincide, and the summary file coincides as soon as the
captured date/time strings also coincide. -/
def DeterministicOutputs (e1 e2 : SummaryEnv) (db1 db2 : DbData) : Prop :=
  ((run_extraction_files e1 db1).f01 = (run_extraction_files e2 db2).f01 ∧
   (run_extraction_files e1 db1).f02 = (run_extraction_files e2 db2).f02 ∧
   (run_extraction_files e1 db1).f03 = (run_extraction_files e2 db2).f03 ∧
   (run_extraction_files e1 db1).f04 = (run_extraction_files e2 db2).f04 ∧
   (run_extraction_files e1 db1).f05 = (run_extraction_files e2 db2).f05 ∧
   (run_extraction_files e1 db1).f06 = (run_extraction_files e2 db2).f06) ∧
  (e1.dateOut = e2.dateOut → e1.timeOut = e2.timeOut →
    (run_extraction_files e1 db1).f00 = (run_extraction_files e2 db2).f00)

/-- Run environment of a first extraction run. -/
def cexEnvMon : SummaryEnv := ⟨"mydb", "myhost", "Mon 01/01/2024", "10:00 AM"⟩

/-- Run environment of a second extraction run one day later: same
configured database and host, different `date /t` output. -/
def cexEnvTue : SummaryEnv := ⟨"mydb", "myhost", "Tue 01/02/2024", "10:00 AM"⟩

/-- An unchanged (empty) schema observed by both runs. -/
def cexDb : DbData := ⟨[], [], [], [], [], []⟩

/-- A DECIMAL column whose precision is present but zero: Python
truthiness (`and num_prec`) then skips the precision suffix. -/
def cexZeroPrec : ColRow :=
  ⟨"dbo", "t", "v", "decimal", none, some 0, none, "YES", none, 1⟩

/-! # Theorems -/

section GroupingLemmas

theorem keys_insertRow (acc : List (String × List ColRow)) (k : String) (r : ColRow) :
    (insertRow acc k r).map Prod.fst =
      if k ∈ acc.map Prod.fst then acc.map Prod.fst else acc.map Prod.fst ++ [k] := by
  induction acc with
  | nil => simp [insertRow]
  | cons p rest ih =>
    obtain ⟨k', g⟩ := p
    by_cases hk : k' = k
    · subst hk
      simp [insertRow]
    · by_cases hm : k ∈ rest.map Prod.fst <;>
        simp [insertRow, hk, ih, hm, Ne.symm hk]

theorem mem_keys_insertRow (acc : List (String × List ColRow)) (k0 : String) (r : ColRow)
    (k : String) :
    k ∈ (insertRow acc k0 r).map Prod.fst ↔ k ∈ acc.map Prod.fst ∨ k = k0 := by
  rw [keys_insertRow]
  split_ifs with h
  · exact ⟨Or.inl, fun h' => h'.elim id (fun e => e ▸ h)⟩
  · simp

theorem nodup_keys_insertRow (acc : List (String × List ColRow)) (k : String) (r : ColRow)
    (h : (acc.map Prod.fst).Nodup) : ((insertRow acc k r).map Prod.fst).Nodup := by
  rw [keys_insertRow]
  split_ifs with hm
  · exact h
  · simp [List.nodup_append, h, hm]

theorem findGrp_insertRow (acc : List (String × List ColRow)) (k : String) (r : ColRow)
    (k' : String) :
    findGrp (insertRow acc k r) k' =
      if k' = k then findGrp acc k ++ [r] else findGrp acc k' := by
  induction acc with
  | nil =>
    by_cases h : k' = k
    · subst h; simp [insertRow, findGrp]
    · simp [insertRow, findGrp, h, Ne.symm h]
  | cons p rest ih =>
    obtain ⟨k'', g⟩ := p
    by_cases h1 : k'' = k
    · subst h1
      by_cases h2 : k' = k''
      · subst h2; simp [insertRow, findGrp]
      · simp [insertRow, findGrp, h2, Ne.symm h2]
    · by_cases h2 : k'' = k'
      · subst h2
        simp [insertRow, findGrp, h1]
      · simp [insertRow, findGrp, h1, h2, ih]

theorem nodup_keys_groupsAux (rows : List ColRow) :
    ∀ acc, (acc.map Prod.fst).Nodup → ((groupsAux acc rows).map Prod.fst).Nodup := by
  induction rows with
  | nil => intro acc h; simpa [groupsAux] using h
  | cons r rs ih => intro acc h; exact ih _ (nodup_keys_insertRow _ _ _ h)

theorem mem_keys_groupsAux (rows : List ColRow) :
    ∀ acc k, k ∈ (groupsAux acc rows).map Prod.fst ↔
      k ∈ acc.map Prod.fst ∨ ∃ r ∈ rows, fullName r = k := by
  induction rows with
  | nil => intro acc k; simp [groupsAux]
  | cons r rs ih =>
    intro acc k
    rw [groupsAux, ih, mem_keys_insertRow]
    constructor
    · rintro ((h | rfl) | ⟨r', hr', rfl⟩)
      · exact Or.inl h
      · exact Or.inr ⟨r, List.mem_cons_self r rs, rfl⟩
      · exact Or.inr ⟨r', List.mem_cons_of_mem r hr', rfl⟩
    · rintro (h | ⟨r', hr', rfl⟩)
      · exact Or.inl (Or.inl h)
      · rcases List.mem_cons.mp hr' with rfl | hr'
        · exact Or.inl (Or.inr rfl)
        · exact Or.inr ⟨r', hr', rfl⟩

theorem findGrp_groupsAux (rows : List ColRow) :
    ∀ acc k, findGrp (groupsAux acc rows) k =
      findGrp acc k ++ rows.filter (fun r => fullName r == k) := by
  induction rows with
  | nil => intro acc k; simp [groupsAux]
  | cons r rs ih =>
    intro acc k
    rw [groupsAux, ih, findGrp_insertRow]
    by_cases h : fullName r = k
    · simp [h, List.filter_cons]
    · simp [h, List.filter_cons, Ne.symm h]

theorem findGrp_eq_of_mem :
    ∀ (l : List (String × List ColRow)) (k : String) (g : List ColRow),
      (l.map Prod.fst).Nodup → (k, g) ∈ l → findGrp l k = g := by
  intro l
  induction l with
  | nil => intro k g _ h; cases h
  | cons p rest ih =>
    intro k g hnd hm
    obtain ⟨k', g'⟩ := p
    simp only [List.map_cons, List.nodup_cons] at hnd
    rcases List.mem_cons.mp hm with h | h
    · injection h with h1 h2
      subst h1; subst h2
      simp [findGrp]
    · have hk : k' ≠ k := by
        rintro rfl
        exact hnd.1 (List.mem_map_of_mem Prod.fst h)
      simp only [findGrp, if_neg hk]
      exact ih k g hnd.2 h

theorem findGrp_groupsOf (rows : List ColRow) (k : String) :
    findGrp (groupsOf rows) k = rows.filter (fun r => fullName r == k) := by
  rw [groupsOf, findGrp_groupsAux]
  simp [findGrp]

theorem nodup_keys_groupsOf (rows : List ColRow) :
    ((groupsOf rows).map Prod.fst).Nodup := by
  exact nodup_keys_groupsAux rows [] (by simp)

theorem mem_keys_groupsOf (rows : List ColRow) (k : String) :
    k ∈ (groupsOf rows).map Prod.fst ↔ ∃ r ∈ rows, fullName r = k := by
  rw [groupsOf, mem_keys_groupsAux]
  simp

theorem group_eq_filter (rows : List ColRow) (k : String) (g : List ColRow)
    (h : (k, g) ∈ groupsOf rows) :
    g = rows.filter (fun r => fullName r == k) := by
  rw [← findGrp_groupsOf]
  exact (findGrp_eq_of_mem _ k g (nodup_keys_groupsOf rows) h).symm

theorem insertDef_map (acc : List (String × List ColRow)) (k : String) (r : ColRow) :
    insertDef (acc.map defsOfGroup) k (colDef r) = (insertRow acc k r).map defsOfGroup := by
  induction acc with
  | nil => simp [insertDef, insertRow, defsOfGroup]
  | cons p rest ih =>
    obtain ⟨k', g⟩ := p
    by_cases h : k' = k
    · subst h; simp [insertDef, insertRow, defsOfGroup]
    · simp [insertDef, insertRow, defsOfGroup, h, ih]

theorem tablesAux_map (rows : List ColRow) :
    ∀ acc, tablesAux (acc.map defsOfGroup) rows = (groupsAux acc rows).map defsOfGroup := by
  induction rows with
  | nil => intro acc; simp [tablesAux, groupsAux]
  | cons r rs ih =>
    intro acc
    rw [tablesAux, groupsAux, insertDef_map, ih]

theorem tables_of_eq_groups (rows : List ColRow) :
    tables_of rows = (groupsOf rows).map defsOfGroup := by
  have := tablesAux_map rows []
  simpa [tables_of, groupsOf] using this

end GroupingLemmas

section OrderLemmas

theorem charListLt_self (l : List Char) : charListLt l l = false := by
  induction l with
  | nil => rfl
  | cons a as ih => simp [charListLt, ih, lt_irrefl]

theorem strLtb_self (s : String) : strLtb s s = false :=
  charListLt_self s.data

theorem rowLE_pos_le (a b : ColRow) (h : rowLE a b) (hs : a.schema = b.schema)
    (ht : a.tableName = b.tableName) : a.pos ≤ b.pos := by
  rcases h with h | ⟨-, h | ⟨-, h⟩⟩
  · rw [hs] at h
    rw [strLtb_self] at h
    cases h
  · rw [ht] at h
    rw [strLtb_self] at h
    cases h
  · exact h

theorem append_dot_inj :
    ∀ (s1 s2 t1 t2 : List Char), ('.' : Char) ∉ s1 → ('.' : Char) ∉ s2 →
      s1 ++ '.' :: t1 = s2 ++ '.' :: t2 → s1 = s2 ∧ t1 = t2 := by
  intro s1
  induction s1 with
  | nil =>
    intro s2 t1 t2 _ h2 h
    cases s2 with
    | nil => simpa using h
    | cons c s2' =>
      exfalso
      simp only [List.nil_append, List.cons_append, List.cons.injEq] at h
      exact h2 (h.1 ▸ List.mem_cons_self c s2')
  | cons a s1' ih =>
    intro s2 t1 t2 h1 h2 h
    cases s2 with
    | nil =>
      exfalso
      simp only [List.nil_append, List.cons_append, List.cons.injEq] at h
      exact h1 (h.1 ▸ List.mem_cons_self a s1')
    | cons b s2' =>
      simp only [List.cons_append, List.cons.injEq] at h
      obtain ⟨rfl, htl⟩ := h
      have h1' : ('.' : Char) ∉ s1' := fun hm => h1 (List.mem_cons_of_mem a hm)
      have h2' : ('.' : Char) ∉ s2' := fun hm => h2 (List.mem_cons_of_mem a hm)
      obtain ⟨hs, ht⟩ := ih s2' t1 t2 h1' h2' htl
      exact ⟨by rw [hs], ht⟩

theorem data_fullName (r : ColRow) :
    (fullName r).data = r.schema.data ++ '.' :: r.tableName.data := by
  simp [fullName, String.data_append]

theorem fullName_eq_iff (a b : ColRow) (ha : ('.' : Char) ∉ a.schema.data)
    (hb : ('.' : Char) ∉ b.schema.data) :
    fullName a = fullName b ↔ a.schema = b.schema ∧ a.tableName = b.tableName := by
  constructor
  · intro h
    have hd := congrArg String.data h
    rw [data_fullName, data_fullName] at hd
    obtain ⟨h1, h2⟩ := append_dot_inj _ _ _ _ ha hb hd
    exact ⟨String.ext h1, String.ext h2⟩
  · rintro ⟨h1, h2⟩
    unfold fullName
    rw [h1, h2]

end OrderLemmas

section C1

/-- C1 (corrected): the claim as stated fails because the `tables`
dictionary is keyed by the concatenation `f"{schema}.{table_name}"`
(`extract_ddl.py:94`), which identifies distinct (schema, table)
pairs when a schema name contains a dot.  For the well-formed
(sorted) input `[cexRowA, cexRowB]`, whose rows have distinct
(schema, table) pairs `("a", "b.c")` and `("a.b", "c")`, the output
has exactly one `CREATE TABLE` block containing both rows, so "two
rows belong to the same block iff they have the same schema and the
same table name" is false. -/
theorem extract_table_ddl_dotted_schema_collision :
    sortedRows [cexRowA, cexRowB] ∧
    groupsOf [cexRowA, cexRowB] = [("a.b.c", [cexRowA, cexRowB])] ∧
    (tables_of [cexRowA, cexRowB]).length = 1 ∧
    ¬(cexRowA.schema = cexRowB.schema ∧ cexRowA.tableName = cexRowB.tableName) := by
  decide

/-- C1 (amended): for every well-formed list of column metadata rows
(sorted by schema, table, ordinal position) in which no schema name
contains a dot — so that the dictionary key `f"{schema}.{table_name}"`
determines the (schema, table) pair — the output of
`extract_table_ddl` contains exactly one `CREATE TABLE` block per
distinct (schema, table) pair: the block keys are pairwise distinct,
every row's table is represented, two rows belong to the same block
iff they have the same schema and the same table name, and within
each block the columns appear in ordinal-position order. -/
theorem extract_table_ddl_one_block_per_table (rows : List ColRow)
    (hsort : sortedRows rows) (hdot : dotFreeSchemas rows) :
    TableBlockStructure rows := by
  have hkeys : (tables_of rows).map Prod.fst = (groupsOf rows).map Prod.fst := by
    rw [tables_of_eq_groups, List.map_map]
    rfl
  have hmem3 : ∀ k g, (k, g) ∈ groupsOf rows → ∀ r ∈ g, r ∈ rows ∧ fullName r = k := by
    intro k g hkg r hrg
    rw [group_eq_filter rows k g hkg] at hrg
    rw [List.mem_filter] at hrg
    exact ⟨hrg.1, by simpa using hrg.2⟩
  refine ⟨?_, ?_, hmem3, ?_, ?_, tables_of_eq_groups rows⟩
  · rw [hkeys]
    exact nodup_keys_groupsOf rows
  · intro r hr
    rw [hkeys, mem_keys_groupsOf]
    exact ⟨r, hr, rfl⟩
  · intro r hr r' hr'
    exact fullName_eq_iff r r' (hdot r hr) (hdot r' hr')
  · intro k g hkg
    have hg := group_eq_filter rows k g hkg
    have hsub : g.Sublist rows := by
      rw [hg]
      exact List.filter_sublist rows
    have hpw : g.Pairwise rowLE := hsort.sublist hsub
    refine hpw.imp_of_mem ?_
    intro a b ha hb hab
    obtain ⟨haRows, hak⟩ := hmem3 k g hkg a ha
    obtain ⟨hbRows, hbk⟩ := hmem3 k g hkg b hb
    have heq : fullName a = fullName b := by rw [hak, hbk]
    obtain ⟨hs, ht⟩ :=
      (fullName_eq_iff a b (hdot a haRows) (hdot b hbRows)).mp heq
    exact rowLE_pos_le a b hab hs ht

/-- Witness: the amended C1 theorem applied to a concrete well-formed
three-row, two-table result set. -/
theorem extract_table_ddl_one_block_per_table_witness :
    sortedRows witnessRows ∧ dotFreeSchemas witnessRows ∧
      TableBlockStructure witnessRows :=
  ⟨by decide, by decide,
    extract_table_ddl_one_block_per_table witnessRows (by decide) (by decide)⟩

end C1

section C2

/-- C2 (corrected): the claim fails for `00_schema_summary.sql`
because `create_summary_file` embeds the output of
`os.popen('date /t')` / `os.popen('time /t')` captured at run time
(`extract_ddl.py:333`).  Two runs over the identical (empty) schema
with identical database/host configuration but date command output
one day apart produce different summary files. -/
theorem schema_summary_embeds_timestamp :
    cexEnvMon.database = cexEnvTue.database ∧ cexEnvMon.host = cexEnvTue.host ∧
    (run_extraction_files cexEnvMon cexDb).f00 ≠ (run_extraction_files cexEnvTue cexDb).f00 := by
  decide

/-- C2 (amended): running the Extractor twice against the same
unchanged schema metadata produces byte-identical contents for the
six DDL output files `01`-`06`; the summary file `00` is also
byte-identical provided the date/time command output captured at run
time coincides as well. -/
theorem run_extraction_ddl_files_deterministic (e1 e2 : SummaryEnv) (db1 db2 : DbData)
    (hdb : db1 = db2) (hname : e1.database = e2.database) (hhost : e1.host = e2.host) :
    DeterministicOutputs e1 e2 db1 db2 := by
  subst hdb
  refine ⟨⟨rfl, rfl, rfl, rfl, rfl, rfl⟩, ?_⟩
  intro hd ht
  have he : e1 = e2 := by
    cases e1; cases e2
    simp_all
  rw [he]

/-- Witness: the amended determinism theorem applied to two identical
runs over the empty schema. -/
theorem run_extraction_ddl_files_deterministic_witness :
    DeterministicOutputs cexEnvMon cexEnvMon cexDb cexDb :=
  run_extraction_ddl_files_deterministic cexEnvMon cexEnvMon cexDb cexDb rfl rfl rfl

end C2

section C3

/-- C3 (confirmed): for a character-type column (`VARCHAR`,
`NVARCHAR`, `CHAR`, `NCHAR`) with a present maximum length, the
suffix is the literal `(MAX)` when the length equals `-1` and `(<n>)`
for any other positive length `n`; for a non-character type the
suffix never depends on the maximum length (no length suffix is
produced). -/
theorem char_length_suffix_rendering (r : ColRow) :
    (charTypeNames.contains (pyUpper r.dataType) = true →
      (r.charLen = some (-1) → typeSuffix r = "(MAX)") ∧
      (∀ n : Int, r.charLen = some n → 0 < n → typeSuffix r = s!"({n})")) ∧
    (charTypeNames.contains (pyUpper r.dataType) = false →
      ∀ m : Option Int, typeSuffix { r with charLen := m } = typeSuffix r) := by
  refine ⟨fun hc => ⟨?_, ?_⟩, fun hc m => ?_⟩
  · intro h
    have hm : pyUpper r.dataType ∈ charTypeNames := by simpa using hc
    simp [typeSuffix, hm, h, intTruthy]
  · intro n hn hpos
    have hm : pyUpper r.dataType ∈ charTypeNames := by simpa using hc
    have hne : n ≠ 0 := by omega
    have hne1 : n ≠ -1 := by omega
    simp [typeSuffix, hm, hn, intTruthy, hne, hne1]
  · have hm : pyUpper r.dataType ∉ charTypeNames := by simpa using hc
    simp [typeSuffix, hm]

/-- Witness: `NVARCHAR(-1)` renders as `NVARCHAR(MAX)` and `CHAR(5)`
renders as `CHAR(5)`. -/
theorem char_length_suffix_rendering_witness :
    typeSuffix ⟨"dbo", "t", "name", "nvarchar", some (-1), none, none, "NO", none, 1⟩ =
        "(MAX)" ∧
    typeSuffix ⟨"dbo", "t", "code", "char", some 5, none, none, "NO", none, 2⟩ = "(5)" :=
  ⟨((char_length_suffix_rendering
      ⟨"dbo", "t", "name", "nvarchar", some (-1), none, none, "NO", none, 1⟩).1
      (by decide)).1 rfl,
   ((char_length_suffix_rendering
      ⟨"dbo", "t", "code", "char", some 5, none, none, "NO", none, 2⟩).1
      (by decide)).2 5 rfl (by decide)⟩

end C3

section C4

/-- C4 (corrected): the claim as stated fails when the precision is
present but equals `0`: the guard `and num_prec`
(`extract_ddl.py:107`) uses Python truthiness, so a `DECIMAL` column
with `NUMERIC_PRECISION = 0` and absent scale gets no suffix at all
instead of the claimed `(0)`. -/
theorem numeric_zero_precision_no_suffix :
    numTypeNames.contains (pyUpper cexZeroPrec.dataType) = true ∧
    cexZeroPrec.numPrec = some 0 ∧ cexZeroPrec.numScale = none ∧
    typeSuffix cexZeroPrec = "" ∧ ("" : String) ≠ "(0)" := by
  decide

/-- C4 (amended): for every column metadata row whose data type is an
exact-numeric type (`DECIMAL`, `NUMERIC`) with a present non-zero
precision, `extract_table_ddl` renders `(<precision>)` when the scale
is absent or zero, and `(<precision>,<scale>)` when a non-zero scale
is present. -/
theorem numeric_precision_suffix_rendering (r : ColRow) (p : Int)
    (hn : numTypeNames.contains (pyUpper r.dataType) = true)
    (hp : r.numPrec = some p) (hp0 : p ≠ 0) :
    ((r.numScale = none ∨ r.numScale = some 0) → typeSuffix r = s!"({p})") ∧
    (∀ sc : Int, r.numScale = some sc → sc ≠ 0 → typeSuffix r = s!"({p},{sc})") := by
  have hb : pyUpper r.dataType = "DECIMAL" ∨ pyUpper r.dataType = "NUMERIC" := by
    have hn' : pyUpper r.dataType ∈ numTypeNames := by simpa using hn
    simpa [numTypeNames] using hn'
  have hcm : pyUpper r.dataType ∉ charTypeNames := by
    rcases hb with hb | hb <;> rw [hb] <;> decide
  have hnm : pyUpper r.dataType ∈ numTypeNames := by simpa using hn
  refine ⟨fun hs => ?_, fun sc hsc hsc0 => ?_⟩
  · rcases hs with hs | hs <;>
      simp [typeSuffix, hcm, hnm, hp, hs, intTruthy, hp0]
  · simp [typeSuffix, hcm, hnm, hp, hsc, intTruthy, hp0, hsc0]

/-- Witness: `DECIMAL(10)` and `DECIMAL(10,2)` rendering. -/
theorem numeric_precision_suffix_rendering_witness :
    typeSuffix ⟨"dbo", "t", "a", "decimal", none, some 10, none, "YES", none, 1⟩ =
        "(10)" ∧
    typeSuffix ⟨"dbo", "t", "b", "decimal", none, some 10, some 2, "YES", none, 2⟩ =
        "(10,2)" :=
  ⟨(numeric_precision_suffix_rendering
      ⟨"dbo", "t", "a", "decimal", none, some 10, none, "YES", none, 1⟩ 10
      (by decide) rfl (by decide)).1 (Or.inl rfl),
   (numeric_precision_suffix_rendering
      ⟨"dbo", "t", "b", "decimal", none, some 10, some 2, "YES", none, 2⟩ 10
      (by decide) rfl (by decide)).2 2 rfl (by decide)⟩

end C4

section ParseLemmas

theorem runLines_append (st : ParseState) (xs ys : List String) :
    runLines st (xs ++ ys) =
      ((runLines (runLines st xs).1 ys).1,
        (runLines st xs).2 ++ (runLines (runLines st xs).1 ys).2) := by
  induction xs generalizing st with
  | nil => simp [runLines]
  | cons l ls ih => simp [runLines, ih]

/-- A line whose stripped form starts with `SQL:` does not start with
`Q:`. -/
theorem sql_line_not_q_line (t : String) (h : pyStartsWith t "SQL:" = true) :
    pyStartsWith t "Q:" = false := by
  unfold pyStartsWith at h ⊢
  have hs : ("SQL:" : String).data = ['S', 'Q', 'L', ':'] := rfl
  have hq : ("Q:" : String).data = ['Q', ':'] := rfl
  rw [hs] at h
  rw [hq]
  cases hd : t.data with
  | nil => rw [hd] at h; simp [List.isPrefixOf] at h
  | cons c tl =>
    rw [hd] at h
    simp only [List.isPrefixOf, Bool.and_eq_true] at h
    obtain ⟨hc, -⟩ := h
    rw [beq_iff_eq] at hc
    subst hc
    simp [List.isPrefixOf]

theorem stepLine_q (st : ParseState) (l : String)
    (h : pyStartsWith (pyStrip l) "Q:" = true) :
    stepLine st l = ((some (pyStrip (pyDrop (pyStrip l) 2)), st.2), []) := by
  simp [stepLine, h]

theorem stepLine_other (st : ParseState) (l : String)
    (hq : pyStartsWith (pyStrip l) "Q:" = false)
    (hs : pyStartsWith (pyStrip l) "SQL:" = false) :
    stepLine st l = (st, []) := by
  simp [stepLine, hq, hs]

/-- Lines matching neither prefix leave the parser state unchanged and
emit nothing. -/
theorem runLines_skip (mid : List String)
    (hmid : ∀ l ∈ mid, pyStartsWith (pyStrip l) "Q:" = false ∧
        pyStartsWith (pyStrip l) "SQL:" = false) :
    ∀ st, runLines st mid = (st, []) := by
  induction mid with
  | nil => intro st; simp [runLines]
  | cons l ls ih =>
    intro st
    have hl := hmid l (List.mem_cons_self l ls)
    have hrest : ∀ l' ∈ ls, pyStartsWith (pyStrip l') "Q:" = false ∧
        pyStartsWith (pyStrip l') "SQL:" = false :=
      fun l' hl' => hmid l' (List.mem_cons_of_mem l hl')
    simp [runLines, stepLine_other st l hl.1 hl.2, ih hrest]

/-- Any pair committed by one loop iteration has a non-empty question
and a non-empty sql payload: the commit is guarded by the truthiness
of both slots. -/
theorem stepLine_pairs (st : ParseState) (l : String) (q : String × String)
    (hq : q ∈ (stepLine st l).2) : q.1 ≠ "" ∧ q.2 ≠ "" := by
  by_cases h1 : pyStartsWith (pyStrip l) "Q:" = true
  · simp [stepLine, h1] at hq
  · by_cases h2 : pyStartsWith (pyStrip l) "SQL:" = true
    · by_cases h3 : (strTruthy st.1 &&
          strTruthy (some (pyStrip (pyDrop (pyStrip l) 4)))) = true
      · have hqe : q = (st.1.getD "", pyStrip (pyDrop (pyStrip l) 4)) := by
          simpa [stepLine, h1, h2, h3] using hq
        rw [Bool.and_eq_true] at h3
        obtain ⟨hslot, hsql⟩ := h3
        subst hqe
        cases hst : st.1 with
        | none => rw [hst] at hslot; simp [strTruthy] at hslot
        | some qs =>
          rw [hst] at hslot
          simp only [strTruthy, decide_eq_true_eq] at hslot hsql
          exact ⟨by simpa using hslot, hsql⟩
      · simp [stepLine, h1, h2, h3] at hq
    · simp [stepLine, h1, h2] at hq

/-- Dropping a `Q:` line that is followed (through non-matching lines
only) by another `Q:` line does not change the parse: the overwritten
question contributes nothing. -/
theorem runLines_drop_unmatched_q (st : ParseState) (q1line q2line : String)
    (mid rest : List String)
    (hq1 : pyStartsWith (pyStrip q1line) "Q:" = true)
    (hq2 : pyStartsWith (pyStrip q2line) "Q:" = true)
    (hmid : ∀ l ∈ mid, pyStartsWith (pyStrip l) "Q:" = false ∧
        pyStartsWith (pyStrip l) "SQL:" = false) :
    runLines st (q1line :: (mid ++ q2line :: rest)) =
      runLines st (mid ++ q2line :: rest) := by
  have h1 : runLines st (q1line :: (mid ++ q2line :: rest)) =
      runLines (some (pyStrip (pyDrop (pyStrip q1line) 2)), st.2)
        (mid ++ q2line :: rest) := by
    simp [runLines, stepLine_q st q1line hq1]
  rw [h1]
  rw [runLines_append, runLines_append]
  rw [runLines_skip mid hmid, runLines_skip mid hmid]
  simp [runLines, stepLine_q _ q2line hq2]

end ParseLemmas

section C5

/-- C5 (confirmed): a `Q:` line followed — through lines matching
neither prefix — by another `Q:` line with no `SQL:` line in between
contributes no pair: deleting it leaves the parse unchanged, because
the second `Q:` line overwrites the pending question
(`train_from_files.py:143-144`).  In particular, on input with two
consecutive `Q:` lines and a single `SQL:` line the first question is
dropped and only the pair formed from the second question survives. -/
theorem unmatched_question_dropped :
    (∀ (content : String) (pre mid rest : List String) (q1line q2line : String),
       pySplitLines content = pre ++ q1line :: (mid ++ q2line :: rest) →
       pyStartsWith (pyStrip q1line) "Q:" = true →
       pyStartsWith (pyStrip q2line) "Q:" = true →
       (∀ l ∈ mid, pyStartsWith (pyStrip l) "Q:" = false ∧
           pyStartsWith (pyStrip l) "SQL:" = false) →
       parse_example_file content = parseLines (pre ++ (mid ++ q2line :: rest))) ∧
    parse_example_file "Q: a\nQ: b\nSQL: c" = [("b", "c")] := by
  constructor
  · intro content pre mid rest q1line q2line hsplit hq1 hq2 hmid
    rw [parse_example_file, hsplit, parseLines, parseLines]
    rw [runLines_append, runLines_append]
    rw [runLines_drop_unmatched_q _ q1line q2line mid rest hq1 hq2 hmid]
  · decide

/-- Witness: the deletion property applied to a concrete file whose
first question has no `SQL:` line before the next question. -/
theorem unmatched_question_dropped_witness :
    pySplitLines "Q: lost\nnoise\nQ: kept\nSQL: s" =
        [] ++ "Q: lost" :: (["noise"] ++ "Q: kept" :: ["SQL: s"]) ∧
    parse_example_file "Q: lost\nnoise\nQ: kept\nSQL: s" =
      parseLines ([] ++ (["noise"] ++ "Q: kept" :: ["SQL: s"])) :=
  ⟨by decide,
    unmatched_question_dropped.1 "Q: lost\nnoise\nQ: kept\nSQL: s"
      [] ["noise"] ["SQL: s"] "Q: lost" "Q: kept"
      (by decide) (by decide) (by decide) (by decide)⟩

end C5

section C9

/-- C9 (confirmed): every pair emitted by `parse_example_file` has a
non-empty question and a non-empty sql string, because the commit at
`train_from_files.py:147-151` is guarded by the Python truthiness of
both pending slots. -/
theorem parse_example_file_pairs_nonempty (content : String) (p : String × String)
    (hp : p ∈ parse_example_file content) : p.1 ≠ "" ∧ p.2 ≠ "" := by
  have key : ∀ (ls : List String) (st : ParseState),
      ∀ q ∈ (runLines st ls).2, q.1 ≠ "" ∧ q.2 ≠ "" := by
    intro ls
    induction ls with
    | nil => intro st q hq; simp [runLines] at hq
    | cons l rest ih =>
      intro st q hq
      rw [runLines] at hq
      simp only [List.mem_append] at hq
      rcases hq with hq | hq
      · exact stepLine_pairs st l q hq
      · exact ih _ q hq
  exact key (pySplitLines content) (none, none) p hp

/-- Witness: the non-emptiness guarantee at a concrete parsed pair. -/
theorem parse_example_file_pairs_nonempty_witness :
    ("a", "b") ∈ parse_example_file "Q: a\nSQL: b" ∧
      ("a" : String) ≠ "" ∧ ("b" : String) ≠ "" :=
  ⟨by decide, parse_example_file_pairs_nonempty "Q: a\nSQL: b" ("a", "b") (by decide)⟩

end C9

section C10

/-- C10 (confirmed): an `SQL:` line whose payload is empty after
stripping commits no pair and leaves the pending question slot
untouched (`train_from_files.py:146-153`: the guard
`if current_question and current_sql` fails on the falsy empty
string, and the clearing assignments sit inside that guard), so a
pending question is still paired with the next non-empty `SQL:` line
even across intervening non-matching lines. -/
theorem empty_sql_line_keeps_pending_question :
    (∀ (st : ParseState) (l : String),
       pyStartsWith (pyStrip l) "SQL:" = true →
       pyStrip (pyDrop (pyStrip l) 4) = "" →
       stepLine st l = ((st.1, some ""), [])) ∧
    parse_example_file "Q: q\nSQL:\nnoise\nSQL: s;" = [("q", "s;")] := by
  constructor
  · intro st l hsql hempty
    have hq := sql_line_not_q_line (pyStrip l) hsql
    simp [stepLine, hq, hsql, hempty, strTruthy]
  · decide

/-- Witness: the empty-`SQL:`-line step property applied to a state
holding a pending question. -/
theorem empty_sql_line_keeps_pending_question_witness :
    pyStartsWith (pyStrip "SQL:") "SQL:" = true ∧
    stepLine ((some "q", none) : ParseState) "SQL:" = ((some "q", some ""), []) :=
  ⟨by decide,
    empty_sql_line_keeps_pending_question.1 ((some "q", none) : ParseState) "SQL:"
      (by decide) (by decide)⟩

end C10

section C6

/-- C6 (confirmed): a training call succeeds exactly when the HTTP
status code is 200 and the JSON body's `status` field equals
`"success"`; in particular an HTTP 200 response whose `status` field
differs from `"success"` is recorded as a failure
(`train_from_files.py:83-93`, `111-121`, `173-181`). -/
theorem train_call_success_criterion (resp : TrainResponse) :
    (trainCallSuccess resp = true ↔
      resp.statusCode = 200 ∧ resp.jsonStatus = some "success") ∧
    (resp.statusCode = 200 → resp.jsonStatus ≠ some "success" →
      trainCallSuccess resp = false) := by
  unfold trainCallSuccess
  constructor
  · split_ifs with h1 h2 <;> simp_all
  · intro h1 h2
    simp [h1, h2]

/-- Witness: HTTP 200 with `{"status": "error"}` is a failure. -/
theorem train_call_success_criterion_witness :
    trainCallSuccess ⟨200, some "error"⟩ = false :=
  (train_call_success_criterion ⟨200, some "error"⟩).2 rfl (by decide)

end C6

section C7

/-- C7 (confirmed): `train_examples` issues one POST per parsed
(question, sql) pair (`respond i` is the response to the `i`-th of the
`(parse_example_file content).length` POSTs), counts the successful
ones, and returns success iff at least one pair succeeded
(`train_from_files.py:157-185`); an empty parsed pair list yields
failure, and partial success still yields overall success. -/
theorem train_examples_success_iff (content : String)
    (respond : Nat → Option TrainResponse) :
    (train_examples content respond = true ↔
      ∃ i, i < (parse_example_file content).length ∧
        exampleOutcome (respond i) = true) ∧
    (parse_example_file content = [] → train_examples content respond = false) := by
  constructor
  · rw [train_examples, train_examples_count]
    rw [decide_eq_true_iff]
    rw [List.countP_pos_iff]
    constructor
    · rintro ⟨i, hi, ho⟩
      exact ⟨i, List.mem_range.mp hi, ho⟩
    · rintro ⟨i, hi, ho⟩
      exact ⟨i, List.mem_range.mpr hi, ho⟩
  · intro h
    simp [train_examples, train_examples_count, h]

/-- Witness: a two-pair file whose first POST raises and whose second
returns HTTP 200 with `status: success` still yields overall success
(partial success), and a file with no parsable pair yields failure. -/
theorem train_examples_success_iff_witness :
    train_examples "Q: a\nSQL: b\nQ: c\nSQL: d"
        (fun i => if i = 0 then none else some ⟨200, some "success"⟩) = true ∧
    train_examples "no pairs here" (fun _ => some ⟨200, some "success"⟩) = false :=
  ⟨(train_examples_success_iff "Q: a\nSQL: b\nQ: c\nSQL: d"
      (fun i => if i = 0 then none else some ⟨200, some "success"⟩)).1.mpr
      ⟨1, by decide, by decide⟩,
   (train_examples_success_iff "no pairs here"
      (fun _ => some ⟨200, some "success"⟩)).2 (by decide)⟩

end C7

section C8

/-- Events produced by the step sequence are file writes only. -/
theorem stepsRun_no_close (l : List (Bool × String)) :
    ExtractEvent.connClosed ∉ stepsRun l := by
  induction l with
  | nil => simp [stepsRun]
  | cons p rest ih =>
    obtain ⟨ok, name⟩ := p
    cases ok <;> simp [stepsRun, ih]

/-- C8 (confirmed): once the connection opens, `run_extraction` closes
it exactly once in every case — the `finally` block at
`extract_ddl.py:403-405` runs whether the steps all succeed or any
step raises — and when the initial connection attempt fails the run
returns at `extract_ddl.py:369-370` before any extraction output file
is written (and never closes a connection). -/
theorem run_extraction_connection_lifecycle (o : StepOutcomes) :
    (o.connectOk = true →
      (run_extraction_trace o).count ExtractEvent.connClosed = 1) ∧
    (o.connectOk = false →
      (∀ n, ExtractEvent.fileWrite n ∉ run_extraction_trace o) ∧
      (run_extraction_trace o).count ExtractEvent.connClosed = 0) := by
  refine ⟨fun hc => ?_, fun hc => ⟨fun n => ?_, ?_⟩⟩
  · rw [run_extraction_trace, if_pos hc]
    rw [List.count_cons, List.count_append]
    rw [List.count_eq_zero.mpr (stepsRun_no_close (stepList o))]
    simp
  · rw [run_extraction_trace, if_neg (by simp [hc])]
    simp
  · rw [run_extraction_trace, if_neg (by simp [hc])]
    simp

/-- Witness: a fully successful run closes once; a run whose
connection attempt fails writes nothing and closes nothing. -/
theorem run_extraction_connection_lifecycle_witness :
    (run_extraction_trace ⟨true, true, true, true, true, true, true, true⟩).count
        ExtractEvent.connClosed = 1 ∧
    ((∀ n, ExtractEvent.fileWrite n ∉
        run_extraction_trace ⟨false, true, true, true, true, true, true, true⟩) ∧
      (run_extraction_trace ⟨false, true, true, true, true, true, true, true⟩).count
        ExtractEvent.connClosed = 0) :=
  ⟨(run_extraction_connection_lifecycle
      ⟨true, true, true, true, true, true, true, true⟩).1 rfl,
   (run_extraction_connection_lifecycle
      ⟨false, true, true, true, true, true, true, true⟩).2 rfl⟩

end C8

end AnalyticsAssistant
